import Mathlib

/-!
Verification of the fast-gateway-protocol CLI core: the MCP protocol bridge
(`src/commands/mcp_bridge.rs`) and the health watchdog (`src/commands/monitor.rs`).

The Rust code is shallowly embedded: `serde_json::Value` becomes the inductive
`Json`; the external daemon-client, lifecycle and registry capabilities become
explicit environment records (`ClientEnv`, `DaemonEnv`, `BridgeEnv`) holding the
outcome each external call would produce; fallible calls are `Except String`
values mirroring Rust `Result`; side effects (start/stop/daemon-call/sleep)
are collected in an explicit `Effect` trace.  Rust `u32` counters are modelled
as `Nat` (all claim scenarios use tiny counts, far from overflow).
-/

namespace FgpCli

/-- Model of `serde_json::Value`. -/
inductive Json where
  | null
  | bool (b : Bool)
  | num (n : Int)
  | str (s : String)
  | arr (xs : List Json)
  | obj (fields : List (String × Json))

/-- Field lookup inside an object's field list (first match, as in a JSON map). -/
def lookupField : List (String × Json) → String → Option Json
  | [], _ => none
  | (k', v) :: rest, k => if k' = k then some v else lookupField rest k

/-- `value.get(key)` of `serde_json`: `some` only on objects that carry the key. -/
def Json.getField : Json → String → Option Json
  | .obj fs, k => lookupField fs k
  | _, _ => none

/-- `Value::as_str`. -/
def Json.asStr : Json → Option String
  | .str s => some s
  | _ => none

mutual

/-- Serialization of a `Json` value (the model of `serde_json::to_string_pretty`;
whitespace/indentation and character escaping are abstracted away — no claim
depends on the rendered text). -/
def Json.render : Json → String
  | .null => "null"
  | .bool b => if b then "true" else "false"
  | .num n => toString n
  | .str s => "\"" ++ s ++ "\""
  | .arr xs => "[" ++ Json.renderSeq xs ++ "]"
  | .obj fs => "\x7b" ++ Json.renderFields fs ++ "\x7d"

/-- Comma-joined rendering of array elements. -/
def Json.renderSeq : List Json → String
  | [] => ""
  | [x] => Json.render x
  | x :: xs => Json.render x ++ "," ++ Json.renderSeq xs

/-- Comma-joined rendering of object fields. -/
def Json.renderFields : List (String × Json) → String
  | [] => ""
  | [(k, v)] => "\"" ++ k ++ "\":" ++ Json.render v
  | (k, v) :: fs => "\"" ++ k ++ "\":" ++ Json.render v ++ "," ++ Json.renderFields fs

end

/-- The `FgpResponse` envelope returned by daemon RPC calls:
`{ ok: bool, result: Option<Value>, error: Option<{message}> }`. -/
structure FgpResponse where
  ok : Bool
  result : Option Json
  error : Option String

/-- Outcomes of the three calls a connected `FgpClient` can make.  Each field is
the `Result` the corresponding Rust call would return (`.error e` = `Err(e)`). -/
structure ClientEnv where
  health : Except String FgpResponse
  methods : Except String FgpResponse
  call : String → Json → Except String FgpResponse

/-- Observable environment of one daemon: whether its socket path exists, and
the outcome of `FgpClient::new` on that socket. -/
structure DaemonEnv where
  socketExists : Bool
  connect : Except String ClientEnv

/-- Environment of the whole bridge: the registry listing (`read_dir` of the
services directory; an absent or unreadable directory is the empty listing),
resolution of an arbitrary daemon name to its environment, and the outcomes of
`lifecycle::start_service` / `lifecycle::stop_service` (`none` = `Ok(())`). -/
structure BridgeEnv where
  services : List (String × DaemonEnv)
  daemon : String → DaemonEnv
  startRes : String → Option String
  stopRes : String → Option String

/-- Side effects the bridge can perform on the outside world. -/
inductive Effect where
  | start (name : String)
  | stop (name : String)
  | call (daemon : String) (method : String) (args : Json)
  | sleep (ms : Nat)

/-! ## Tool-name machinery (mcp_bridge.rs lines 113-117 and 194-203) -/

/-- `str::replace(a, b)` with single-character pattern and replacement. -/
def replaceChar (a b : Char) : List Char → List Char
  | [] => []
  | c :: cs => (if c = a then b else c) :: replaceChar a b cs

/-- Whether a character list starts with the four characters `fgp_`. -/
def hasFgpTag : List Char → Bool
  | 'f' :: 'g' :: 'p' :: '_' :: _ => true
  | _ => false

/-- `tool_name.strip_prefix("fgp_").unwrap_or(tool_name)`. -/
def stripFgp (l : List Char) : List Char :=
  if hasFgpTag l then l.drop 4 else l

/-- `s.splitn(2, sep)`: the part before the first separator, and — when a
separator occurs — the whole remainder after it. -/
def splitFirst (sep : Char) : List Char → List Char × Option (List Char)
  | [] => ([], none)
  | c :: cs =>
    if c = sep then ([], some cs)
    else
      let r := splitFirst sep cs
      (c :: r.1, r.2)

/-- Decoding of a tool name (mcp_bridge.rs lines 196-203): strip the `fgp_`
prefix if present, split on the first underscore; exactly two parts are
required, and the method part gets every underscore replaced by a dot. -/
def decodeToolName (s : String) : Option (String × String) :=
  let r := splitFirst '_' (stripFgp s.data)
  match r.2 with
  | some m => some (⟨r.1⟩, ⟨replaceChar '_' '.' m⟩)
  | none => none

/-- Encoding of a tool name (mcp_bridge.rs line 114):
`format!("fgp_{}_{}", name, method_name.replace('.', "_"))`. -/
def encodeToolName (service method : String) : String :=
  "fgp_" ++ service ++ "_" ++ ⟨replaceChar '.' '_' method.data⟩

/-! ## JSON-RPC envelopes (mcp_bridge.rs lines 318-339) -/

/-- `json_rpc_response`: note that `serde_json` serializes a `None` id as JSON
`null`, so the `id` key is always present. -/
def json_rpc_response (id : Option Json) (result : Json) : Json :=
  Json.obj [("jsonrpc", .str "2.0"), ("id", id.getD .null), ("result", result)]

/-- `json_rpc_error`; as with `json_rpc_response`, a `None` id becomes `null`. -/
def json_rpc_error (id : Option Json) (code : Int) (message : String) : Json :=
  Json.obj [("jsonrpc", .str "2.0"), ("id", id.getD .null),
    ("error", Json.obj [("code", .num code), ("message", .str message)])]

/-- The crate version baked in by `env!("CARGO_PKG_VERSION")`; the manifest is
not part of the sources and no claim depends on the value. -/
def cargoPkgVersion : String := "0.1.0"

/-- `handle_initialize` (mcp_bridge.rs lines 53-68). -/
def handleInit (request : Json) : Json :=
  let id := request.getField "id"
  json_rpc_response id (Json.obj [
    ("protocolVersion", .str "2024-11-05"),
    ("serverInfo", Json.obj [("name", .str "fgp-mcp-bridge"), ("version", .str cargoPkgVersion)]),
    ("capabilities", Json.obj [("tools", Json.obj [])])])

/-! ## tools/list (mcp_bridge.rs lines 71-174) -/

/-- `method["name"].as_str().unwrap_or("unknown")`. -/
def methodNameOf (m : Json) : String :=
  ((m.getField "name").bind Json.asStr).getD "unknown"

/-- `method["description"].as_str().unwrap_or("No description")`. -/
def methodDescOf (m : Json) : String :=
  ((m.getField "description").bind Json.asStr).getD "No description"

/-- One synthesized tool descriptor (mcp_bridge.rs lines 104-117). -/
def mkTool (service : String) (m : Json) : Json :=
  Json.obj [
    ("name", .str (encodeToolName service (methodNameOf m))),
    ("description", .str ("[FGP:" ++ service ++ "] " ++ methodDescOf m)),
    ("inputSchema", (m.getField "params").getD
      (Json.obj [("type", .str "object"), ("properties", Json.obj [])]))]

/-- The per-service method loop (mcp_bridge.rs lines 89-118): skip the internal
methods `health`, `stop`, `methods`, synthesize a tool for every other entry. -/
def toolsFromMethods (service : String) : List Json → List Json
  | [] => []
  | m :: rest =>
    let n := methodNameOf m
    if n = "health" ∨ n = "stop" ∨ n = "methods" then toolsFromMethods service rest
    else mkTool service m :: toolsFromMethods service rest

/-- The nested if-let chain of mcp_bridge.rs lines 82-88: the advertised method
array of a daemon, or `none` when the socket is missing, the connection fails,
the `methods` call fails, the envelope is non-ok, or the result carries no
`methods` array. -/
def advertisedMethods (d : DaemonEnv) : Option (List Json) :=
  if d.socketExists then
    match d.connect with
    | .ok client =>
      match client.methods with
      | .ok resp =>
        if resp.ok then
          match resp.result with
          | some result =>
            match result.getField "methods" with
            | some (Json.arr ms) => some ms
            | some _ => none
            | none => none
          | none => none
        else none
      | .error _ => none
    | .error _ => none
  else none

/-- Tools one registry service contributes to the catalog. -/
def serviceTools (service : String) (d : DaemonEnv) : List Json :=
  match advertisedMethods d with
  | some ms => toolsFromMethods service ms
  | none => []

/-- The `fgp_list_daemons` meta-tool descriptor (mcp_bridge.rs lines 130-137). -/
def listDaemonsTool : Json :=
  Json.obj [
    ("name", .str "fgp_list_daemons"),
    ("description", .str "List all FGP daemons with their status"),
    ("inputSchema", Json.obj [("type", .str "object"), ("properties", Json.obj [])])]

/-- The `fgp_start_daemon` meta-tool descriptor (mcp_bridge.rs lines 139-152). -/
def startDaemonTool : Json :=
  Json.obj [
    ("name", .str "fgp_start_daemon"),
    ("description", .str "Start an FGP daemon"),
    ("inputSchema", Json.obj [
      ("type", .str "object"),
      ("properties", Json.obj [("name", Json.obj [
        ("type", .str "string"),
        ("description", .str "Name of the daemon to start")])]),
      ("required", .arr [.str "name"])])]

/-- The `fgp_stop_daemon` meta-tool descriptor (mcp_bridge.rs lines 154-167). -/
def stopDaemonTool : Json :=
  Json.obj [
    ("name", .str "fgp_stop_daemon"),
    ("description", .str "Stop an FGP daemon"),
    ("inputSchema", Json.obj [
      ("type", .str "object"),
      ("properties", Json.obj [("name", Json.obj [
        ("type", .str "string"),
        ("description", .str "Name of the daemon to stop")])]),
      ("required", .arr [.str "name"])])]

/-- The full tool catalog: per-service tools in registry order, then the three
fixed meta-tools (the `tools.push` accumulation of mcp_bridge.rs lines 72-167). -/
def toolsListTools (services : List (String × DaemonEnv)) : List Json :=
  (services.flatMap fun p => serviceTools p.1 p.2) ++
    [listDaemonsTool, startDaemonTool, stopDaemonTool]

/-- `handle_tools_list` (mcp_bridge.rs lines 71-174); the id passed to
`json_rpc_response` is hard-coded `None`. -/
def handle_tools_list (env : BridgeEnv) : Json :=
  json_rpc_response none (Json.obj [("tools", .arr (toolsListTools env.services))])

/-! ## tools/call (mcp_bridge.rs lines 177-316) -/

/-- Status classification of one daemon inside `handle_list_daemons`
(mcp_bridge.rs lines 254-266): note the code tests `client.health().is_ok()` —
transport success only; the envelope's `ok` flag is never consulted. -/
def daemonStatus (d : DaemonEnv) : String :=
  if d.socketExists then
    match d.connect with
    | .ok client =>
      match client.health with
      | .ok _ => "running"
      | .error _ => "error"
    | .error _ => "error"
  else "stopped"

/-- `handle_list_daemons` (mcp_bridge.rs lines 244-284). -/
def handle_list_daemons (env : BridgeEnv) (id : Option Json) : Json :=
  let daemons := env.services.map fun p =>
    Json.obj [("name", .str p.1), ("status", .str (daemonStatus p.2))]
  json_rpc_response id (Json.obj [("content", .arr [Json.obj [
    ("type", .str "text"), ("text", .str (Json.render (.arr daemons)))]])])

/-- `handle_start_daemon` (mcp_bridge.rs lines 287-300). -/
def handle_start_daemon (env : BridgeEnv) (id : Option Json) (name : String) :
    Json × List Effect :=
  match env.startRes name with
  | none =>
    (json_rpc_response id (Json.obj [("content", .arr [Json.obj [
      ("type", .str "text"), ("text", .str ("Started daemon: " ++ name))]])]),
     [.start name])
  | some e => (json_rpc_error id (-32603) ("Failed to start daemon: " ++ e), [.start name])

/-- `handle_stop_daemon` (mcp_bridge.rs lines 303-316). -/
def handle_stop_daemon (env : BridgeEnv) (id : Option Json) (name : String) :
    Json × List Effect :=
  match env.stopRes name with
  | none =>
    (json_rpc_response id (Json.obj [("content", .arr [Json.obj [
      ("type", .str "text"), ("text", .str ("Stopped daemon: " ++ name))]])]),
     [.stop name])
  | some e => (json_rpc_error id (-32603) ("Failed to stop daemon: " ++ e), [.stop name])

/-- Connecting to the daemon and performing the call
(mcp_bridge.rs lines 217-240); `pre` is the effect trace already accumulated
by the auto-start path. -/
def connectAndCall (env : BridgeEnv) (id : Option Json) (daemon method : String)
    (args : Json) (pre : List Effect) : Json × List Effect :=
  match (env.daemon daemon).connect with
  | .ok client =>
    match client.call method args with
    | .ok resp =>
      if resp.ok then
        (json_rpc_response id (Json.obj [("content", .arr [Json.obj [
          ("type", .str "text"),
          ("text", .str (Json.render ((resp.result).getD .null)))]])]),
         pre ++ [.call daemon method args])
      else
        (json_rpc_error id (-32603) ((resp.error).getD "Unknown error"),
         pre ++ [.call daemon method args])
    | .error e =>
      (json_rpc_error id (-32603) ("Call failed: " ++ e),
       pre ++ [.call daemon method args])
  | .error e => (json_rpc_error id (-32603) ("Failed to connect to daemon: " ++ e), pre)

/-- The decoded-tool-call path of `handle_tools_call`
(mcp_bridge.rs lines 205-240): auto-start when the socket is missing (single
`start` plus a fixed 500 ms wait, no retry loop), then connect and call. -/
def dispatchDaemonCall (env : BridgeEnv) (id : Option Json) (daemon method : String)
    (args : Json) : Json × List Effect :=
  if (env.daemon daemon).socketExists then
    connectAndCall env id daemon method args []
  else
    match env.startRes daemon with
    | some e => (json_rpc_error id (-32603) ("Failed to start daemon: " ++ e), [.start daemon])
    | none => connectAndCall env id daemon method args [.start daemon, .sleep 500]

/-- Dispatch of one tools/call on an already-extracted tool name and argument
object (mcp_bridge.rs lines 184-240): the three meta-tools first, then the
`fgp_<daemon>_<method>` decode. -/
def callTool (env : BridgeEnv) (id : Option Json) (toolName : String) (args : Json) :
    Json × List Effect :=
  if toolName = "fgp_list_daemons" then (handle_list_daemons env id, [])
  else if toolName = "fgp_start_daemon" then
    handle_start_daemon env id (((args.getField "name").bind Json.asStr).getD "")
  else if toolName = "fgp_stop_daemon" then
    handle_stop_daemon env id (((args.getField "name").bind Json.asStr).getD "")
  else
    match decodeToolName toolName with
    | none => (json_rpc_error id (-32602) "Invalid tool name format", [])
    | some (daemon, method) => dispatchDaemonCall env id daemon method args

/-- `handle_tools_call` (mcp_bridge.rs lines 177-241): extraction of id, tool
name and arguments from the request, then dispatch. -/
def handle_tools_call (env : BridgeEnv) (request : Json) : Json × List Effect :=
  let id := request.getField "id"
  let params := (request.getField "params").getD .null
  let toolName := ((params.getField "name").bind Json.asStr).getD ""
  let args := (params.getField "arguments").getD (Json.obj [])
  callTool env id toolName args

/-- One iteration of the `serve` read loop (mcp_bridge.rs lines 31-46): method
dispatch for a single parsed request. -/
def handleRequest (env : BridgeEnv) (request : Json) : Json × List Effect :=
  let id := request.getField "id"
  let method := ((request.getField "method").bind Json.asStr).getD ""
  if method = "initialize" then (handleInit request, [])
  else if method = "tools/list" then (handle_tools_list env, [])
  else if method = "tools/call" then handle_tools_call env request
  else (json_rpc_error id (-32601) "Method not found", [])

/-! ## Health watchdog (monitor.rs) -/

/-- `ServiceState` (monitor.rs lines 21-27). -/
inductive ServiceState where
  | Running
  | Stopped
  | Unhealthy
  | Error
deriving DecidableEq

/-- `WatchdogConfig` (monitor.rs lines 30-35); the delay is in seconds and is
never inspected by any decision the watchdog makes. -/
structure WatchdogConfig where
  enabled : Bool
  maxRestarts : Nat
  restartDelay : Nat

/-- What one watchdog action produces for a single service: the new restart
attempt counter, the `notifications::notify` calls in order, and whether
`lifecycle::start_service` was invoked. -/
structure ChangeResult where
  attempts : Nat
  notifs : List (String × String)
  startInvoked : Bool
deriving DecidableEq

/-- `get_service_state` (monitor.rs lines 139-160); the argument is the
observable environment of the service's socket. -/
def get_service_state (d : DaemonEnv) : ServiceState :=
  if !d.socketExists then .Stopped
  else
    match d.connect with
    | .ok client =>
      match client.health with
      | .ok resp =>
        if resp.ok then
          let result := (resp.result).getD .null
          let status := ((result.getField "status").bind Json.asStr).getD "running"
          if status = "healthy" ∨ status = "running" then .Running
          else if status = "degraded" ∨ status = "unhealthy" then .Unhealthy
          else .Running
        else .Error
      | .error _ => .Error
    | .error _ => .Error

/-- `attempt_restart` (monitor.rs lines 243-303).  `startRes` is the outcome
`lifecycle::start_service` would produce (`none` = `Ok`). -/
def attempt_restart (startRes : Option String) (cfg : WatchdogConfig) (name : String)
    (attempts : Nat) : ChangeResult :=
  let a := attempts + 1
  if cfg.maxRestarts > 0 ∧ a > cfg.maxRestarts then
    ⟨a, [("FGP Restart Limit Reached",
          name ++ " exceeded " ++ toString cfg.maxRestarts ++ " restart attempts")], false⟩
  else
    match startRes with
    | none => ⟨a, [], true⟩
    | some e => ⟨a, [("FGP Restart Failed", "Failed to restart " ++ name ++ ": " ++ e)], true⟩

/-- The notification table of `handle_state_change` (monitor.rs lines 176-224):
`some (title, message)` for the six notifying transitions, `none` for the
log-only remainder. -/
def notifOf (name : String) : ServiceState → ServiceState → Option (String × String)
  | .Running, .Error => some ("FGP Service Crashed", name ++ " daemon crashed")
  | .Running, .Stopped => some ("FGP Service Stopped", name ++ " daemon stopped unexpectedly")
  | .Running, .Unhealthy => some ("FGP Service Unhealthy", name ++ " daemon is unhealthy")
  | .Unhealthy, .Running => some ("FGP Service Recovered", name ++ " daemon recovered")
  | .Error, .Running => some ("FGP Service Started", name ++ " daemon is now running")
  | .Stopped, .Running => some ("FGP Service Started", name ++ " daemon started")
  | _, _ => none

/-- `handle_state_change` (monitor.rs lines 163-240): log-only transitions
return early; notifying transitions notify and, when the watchdog is enabled
and the transition is restart-eligible, run `attempt_restart`. -/
def handle_state_change (startRes : Option String) (cfg : WatchdogConfig) (name : String)
    (prev cur : ServiceState) (attempts : Nat) : ChangeResult :=
  match notifOf name prev cur with
  | none => ⟨attempts, [], false⟩
  | some notif =>
    if cfg.enabled ∧ (prev = .Running ∧ (cur = .Error ∨ cur = .Stopped)) then
      let r := attempt_restart startRes cfg name attempts
      ⟨r.attempts, notif :: r.notifs, r.startInvoked⟩
    else ⟨attempts, [notif], false⟩

/-- One service's slice of a polling pass (monitor.rs lines 119-134): given the
remembered previous state and the freshly computed current state, fire
`handle_state_change` on a difference and clear the restart counter on a
transition into `Running`. -/
def checkService (startRes : Option String) (cfg : WatchdogConfig) (name : String)
    (prev : Option ServiceState) (cur : ServiceState) (attempts : Nat) : ChangeResult :=
  match prev with
  | some p =>
    if p ≠ cur then
      let r := handle_state_change startRes cfg name p cur attempts
      ⟨if cur = .Running then 0 else r.attempts, r.notifs, r.startInvoked⟩
    else ⟨attempts, [], false⟩
  | none => ⟨attempts, [], false⟩

/-- Accumulated outcome of a sequence of polling observations of one service. -/
structure RunResult where
  attempts : Nat
  starts : Nat
  notifs : List (String × String)
deriving DecidableEq

/-- Driving `checkService` over a list of observed states (successive polling
passes for one service), threading the remembered state and the counter. -/
def runObservations (startRes : Option String) (cfg : WatchdogConfig) (name : String) :
    List ServiceState → Option ServiceState → Nat → RunResult
  | [], _, a => ⟨a, 0, []⟩
  | s :: rest, prev, a =>
    let r := checkService startRes cfg name prev s a
    let k := runObservations startRes cfg name rest (some s) r.attempts
    ⟨k.attempts, (if r.startInvoked then 1 else 0) + k.starts, r.notifs ++ k.notifs⟩

/-- The restart counter after `n` consecutive `Running → Error` crash events
delivered to `handle_state_change` with no intervening recovery. -/
def iterateCrashes (startRes : Option String) (cfg : WatchdogConfig) (name : String) :
    Nat → Nat
  | 0 => 0
  | n + 1 =>
    (handle_state_change startRes cfg name .Running .Error
      (iterateCrashes startRes cfg name n)).attempts

/-- Whether a notification with the given title occurs in a trace. -/
def hasTitle (t : String) (l : List (String × String)) : Bool :=
  l.any fun p => p.1 == t

/-! ## Definitions taken from the spec's words, for the comparison claims -/

/-- Modelled from the spec (claim C8's wording): unreachable socket means
`Stopped`; a connect or health failure or a non-ok envelope means `Error`;
then `Unhealthy` exactly on status `degraded`/`unhealthy`, every other status
string (including the two nominal ones) meaning `Running`. -/
def claimServiceState (d : DaemonEnv) : ServiceState :=
  if !d.socketExists then .Stopped
  else
    match d.connect with
    | .error _ => .Error
    | .ok client =>
      match client.health with
      | .error _ => .Error
      | .ok resp =>
        if !resp.ok then .Error
        else
          let status := ((((resp.result).getD .null).getField "status").bind Json.asStr).getD
            "running"
          if status = "degraded" ∨ status = "unhealthy" then .Unhealthy else .Running

/-- Modelled from the spec (claim C1's wording): `running` exactly when the
endpoint is reachable and the health query succeeds with an ok envelope,
`error` when reachable but the health query fails or reports non-ok,
`stopped` when unreachable. -/
def claimDaemonStatus (d : DaemonEnv) : String :=
  if d.socketExists then
    match d.connect with
    | .ok client =>
      match client.health with
      | .ok resp => if resp.ok then "running" else "error"
      | .error _ => "error"
    | .error _ => "error"
  else "stopped"

/-- Whether `client.health().is_ok()` holds: connection succeeded and the
health call succeeded at the transport level (the envelope is not consulted). -/
def healthTransportOk (d : DaemonEnv) : Bool :=
  match d.connect with
  | .ok client =>
    match client.health with
    | .ok _ => true
    | .error _ => false
  | .error _ => false

/-- The amended C1 classifier: `running` exactly when the socket exists and the
transport-level health call succeeds — the envelope's `ok` flag is ignored;
`error` when the socket exists but connecting or the transport-level health
call fails; `stopped` when the socket is absent. -/
def amendedDaemonStatus (d : DaemonEnv) : String :=
  if d.socketExists && healthTransportOk d then "running"
  else if d.socketExists then "error"
  else "stopped"

/-! ## Theorems -/

theorem splitFirst_append_sep (sep : Char) (d rest : List Char) (h : sep ∉ d) :
    splitFirst sep (d ++ sep :: rest) = (d, some rest) := by
  induction d with
  | nil => simp [splitFirst]
  | cons c cs ih =>
    have hc : c ≠ sep := fun e => h (e ▸ List.mem_cons_self c cs)
    have hcs : sep ∉ cs := fun e => h (List.mem_cons_of_mem c e)
    simp [splitFirst, hc, ih hcs]

theorem replaceChar_cancel (m : List Char) (h : '_' ∉ m) :
    replaceChar '_' '.' (replaceChar '.' '_' m) = m := by
  induction m with
  | nil => rfl
  | cons c cs ih =>
    have hc : c ≠ '_' := fun e => h (e ▸ List.mem_cons_self c cs)
    have hcs : '_' ∉ cs := fun e => h (List.mem_cons_of_mem c e)
    by_cases hd : c = '.'
    · subst hd; simp [replaceChar, ih hcs]
    · simp [replaceChar, hd, hc, ih hcs]

theorem encodeToolName_data (d m : String) :
    (encodeToolName d m).data =
      'f' :: 'g' :: 'p' :: '_' :: (d.data ++ '_' :: replaceChar '.' '_' m.data) := by
  have h : (encodeToolName d m).data =
      (("fgp_".data ++ d.data) ++ "_".data) ++ replaceChar '.' '_' m.data := rfl
  rw [h]
  simp

theorem stripFgp_cons (t : List Char) : stripFgp ('f' :: 'g' :: 'p' :: '_' :: t) = t := rfl

/-- C6: for every daemon name `d` without an underscore and every dot-joined
method name `m` (no underscores inside), encoding as `fgp_<d>_<m-with-dots-as-
underscores>` and then decoding with the bridge's strip / split-on-first-
underscore / underscores-to-dots procedure yields the same daemon and the same
dot-joined method string. -/
theorem tool_name_round_trip (d m : String) (hd : '_' ∉ d.data) (hm : '_' ∉ m.data) :
    decodeToolName (encodeToolName d m) = some (d, m) := by
  unfold decodeToolName
  rw [encodeToolName_data, stripFgp_cons,
    splitFirst_append_sep '_' d.data (replaceChar '.' '_' m.data) hd]
  simp [replaceChar_cancel m.data hm]

theorem tool_name_round_trip_witness :
    '_' ∉ ("email" : String).data ∧ '_' ∉ ("send.batch" : String).data ∧
      decodeToolName (encodeToolName "email" "send.batch") = some ("email", "send.batch") :=
  ⟨by decide, by decide, tool_name_round_trip "email" "send.batch" (by decide) (by decide)⟩

theorem meta_name_not_undecodable (name : String)
    (h : decodeToolName name = none) :
    name ≠ "fgp_list_daemons" ∧ name ≠ "fgp_start_daemon" ∧ name ≠ "fgp_stop_daemon" :=
  ⟨fun e => absurd (e ▸ h) (by decide),
   fun e => absurd (e ▸ h) (by decide),
   fun e => absurd (e ▸ h) (by decide)⟩

/-- C7: a tools/call whose tool name does not split into exactly two parts after
stripping `fgp_` and splitting on the first underscore is answered with the
JSON-RPC error `-32602` "Invalid tool name format", and no lifecycle start, no
lifecycle stop and no daemon call is performed (the effect trace is empty). -/
theorem invalid_tool_name_error (env : BridgeEnv) (id : Option Json) (name : String)
    (args : Json) (h : decodeToolName name = none) :
    callTool env id name args = (json_rpc_error id (-32602) "Invalid tool name format", []) := by
  obtain ⟨h1, h2, h3⟩ := meta_name_not_undecodable name h
  unfold callTool
  rw [if_neg h1, if_neg h2, if_neg h3, h]

theorem invalid_tool_name_error_witness :
    decodeToolName "fgp_x" = none ∧
      callTool ⟨[], fun _ => ⟨false, .error "down"⟩, fun _ => some "err", fun _ => some "err"⟩
        none "fgp_x" (Json.obj []) =
        (json_rpc_error none (-32602) "Invalid tool name format", []) :=
  ⟨by decide, invalid_tool_name_error _ none "fgp_x" (Json.obj []) (by decide)⟩

/-- C10: a tools/call tool name that is none of the three meta-tools and does
not start with `fgp_` is not rejected for the missing prefix: the whole name is
split on its first underscore and dispatched as `(daemon, method)` — so the
`fgp_` prefix is optional at the public interface. -/
theorem fgp_tag_optional_dispatch (env : BridgeEnv) (id : Option Json) (args : Json)
    (name : String) (dl ml : List Char)
    (h : hasFgpTag name.data = false)
    (hs : splitFirst '_' name.data = (dl, some ml)) :
    callTool env id name args = dispatchDaemonCall env id ⟨dl⟩ ⟨replaceChar '_' '.' ml⟩ args := by
  have h1 : name ≠ "fgp_list_daemons" := fun e => absurd (e ▸ h) (by decide)
  have h2 : name ≠ "fgp_start_daemon" := fun e => absurd (e ▸ h) (by decide)
  have h3 : name ≠ "fgp_stop_daemon" := fun e => absurd (e ▸ h) (by decide)
  unfold callTool decodeToolName stripFgp
  rw [if_neg h1, if_neg h2, if_neg h3, h]
  simp [hs]

theorem fgp_tag_optional_dispatch_witness :
    hasFgpTag ("a_b" : String).data = false ∧
      splitFirst '_' ("a_b" : String).data = (['a'], some ['b']) ∧
      callTool ⟨[], fun _ => ⟨false, .error "down"⟩, fun _ => some "err", fun _ => some "err"⟩
        none "a_b" (Json.obj []) =
        dispatchDaemonCall
          ⟨[], fun _ => ⟨false, .error "down"⟩, fun _ => some "err", fun _ => some "err"⟩
          none "a" "b" (Json.obj []) :=
  ⟨by decide, by decide,
   fgp_tag_optional_dispatch _ none (Json.obj []) "a_b" ['a'] ['b'] (by decide) (by decide)⟩

theorem json_rpc_response_id (id : Option Json) (r : Json) :
    (json_rpc_response id r).getField "id" = some (id.getD .null) := rfl

theorem json_rpc_error_id (id : Option Json) (c : Int) (msg : String) :
    (json_rpc_error id c msg).getField "id" = some (id.getD .null) := rfl

theorem connectAndCall_id (env : BridgeEnv) (id : Option Json) (daemon method : String)
    (args : Json) (pre : List Effect) :
    (connectAndCall env id daemon method args pre).1.getField "id" = some (id.getD .null) := by
  unfold connectAndCall
  rcases hc : (env.daemon daemon).connect with e | client <;>
    simp [hc, json_rpc_error_id]
  rcases hcall : client.call method args with e | resp <;>
    simp [hcall, json_rpc_error_id]
  by_cases hok : resp.ok = true <;>
    simp [hok, json_rpc_response_id, json_rpc_error_id]

theorem dispatchDaemonCall_id (env : BridgeEnv) (id : Option Json) (daemon method : String)
    (args : Json) :
    (dispatchDaemonCall env id daemon method args).1.getField "id" = some (id.getD .null) := by
  unfold dispatchDaemonCall
  by_cases hs : (env.daemon daemon).socketExists = true
  · simp [hs, connectAndCall_id]
  · simp [hs]
    rcases env.startRes daemon with _ | e
    · simp [connectAndCall_id]
    · rfl

theorem callTool_id (env : BridgeEnv) (id : Option Json) (name : String) (args : Json) :
    (callTool env id name args).1.getField "id" = some (id.getD .null) := by
  unfold callTool
  by_cases h1 : name = "fgp_list_daemons"
  · simp [h1, handle_list_daemons, json_rpc_response_id]
  by_cases h2 : name = "fgp_start_daemon"
  · simp [h1, h2, handle_start_daemon]
    rcases env.startRes (((args.getField "name").bind Json.asStr).getD "") with _ | e
    · simp [json_rpc_response_id]
    · simp [json_rpc_error_id]
  by_cases h3 : name = "fgp_stop_daemon"
  · simp [h1, h2, h3, handle_stop_daemon]
    rcases env.stopRes (((args.getField "name").bind Json.asStr).getD "") with _ | e
    · simp [json_rpc_response_id]
    · simp [json_rpc_error_id]
  simp [h1, h2, h3]
  rcases decodeToolName name with _ | ⟨daemon, method⟩
  · rfl
  · simp [dispatchDaemonCall_id]

/-- C2 amended: every response carries an `id` field.  For `initialize`,
`tools/call` and unknown methods it equals the request's `id` when present and
is JSON `null` when the request has none (absence is mapped to `null`, not
omitted); `tools/list` responses always carry `id` `null`, whatever the
request's `id` was. -/
theorem response_id_echo_amended (env : BridgeEnv) (request : Json) :
    (handleRequest env request).1.getField "id" =
      some (if ((request.getField "method").bind Json.asStr).getD "" = "tools/list"
            then Json.null
            else ((request.getField "id").getD .null)) := by
  unfold handleRequest
  by_cases h1 : ((request.getField "method").bind Json.asStr).getD "" = "initialize"
  · simp [h1, handleInit, json_rpc_response_id]
  by_cases h2 : ((request.getField "method").bind Json.asStr).getD "" = "tools/list"
  · simp [h1, h2, handle_tools_list, json_rpc_response_id]
  by_cases h3 : ((request.getField "method").bind Json.asStr).getD "" = "tools/call"
  · simp [h1, h2, h3, handle_tools_call, callTool_id]
  · simp [h1, h2, h3, json_rpc_error_id]

/-- C2 counterexample: the claim "the response's id equals the request's id,
and absence is preserved" fails on the code at two concrete inputs: a
`tools/list` request with `id = 1` is answered with `id = null`
(`handle_tools_list` hard-codes `None`), and an `initialize` request without
any `id` is answered with an explicit `id` field holding `null` (serde encodes
the absent id as `null` rather than omitting the field). -/
theorem response_id_echo_cex :
    ((handleRequest ⟨[], fun _ => ⟨false, .error "down"⟩, fun _ => some "e", fun _ => some "e"⟩
        (Json.obj [("jsonrpc", .str "2.0"), ("id", .num 1),
          ("method", .str "tools/list")])).1.getField "id" = some Json.null)
  ∧ ((Json.obj [("jsonrpc", .str "2.0"), ("id", .num 1),
        ("method", .str "tools/list")]).getField "id" = some (Json.num 1))
  ∧ ((handleRequest ⟨[], fun _ => ⟨false, .error "down"⟩, fun _ => some "e", fun _ => some "e"⟩
        (Json.obj [("jsonrpc", .str "2.0"),
          ("method", .str "initialize")])).1.getField "id" = some Json.null)
  ∧ ((Json.obj [("jsonrpc", .str "2.0"),
        ("method", .str "initialize")]).getField "id" = none) :=
  ⟨rfl, rfl, rfl, rfl⟩

/-- C1 counterexample: a daemon whose socket exists, whose connection succeeds
and whose health call succeeds at the transport level but returns a non-ok
envelope.  The claim classifies it as `error` (reachable but health reports
non-ok); `handle_list_daemons` only tests `client.health().is_ok()` and
classifies it as `running`. -/
theorem list_daemons_status_cex :
    daemonStatus ⟨true, .ok ⟨.ok ⟨false, none, none⟩, .error "m", fun _ _ => .error "c"⟩⟩
        = "running"
  ∧ claimDaemonStatus ⟨true, .ok ⟨.ok ⟨false, none, none⟩, .error "m", fun _ _ => .error "c"⟩⟩
        = "error" :=
  ⟨rfl, rfl⟩

/-- C1 amended: `fgp_list_daemons` classifies a service as `running` exactly
when its socket exists and the health call succeeds at the transport level
(the envelope's `ok` flag is ignored), as `error` when the socket exists but
connecting or the transport-level health call fails, and as `stopped` when
the socket does not exist. -/
theorem list_daemons_status_amended (d : DaemonEnv) :
    daemonStatus d = amendedDaemonStatus d := by
  obtain ⟨sock, conn⟩ := d
  cases sock
  · rfl
  · rcases conn with e | client
    · rfl
    · obtain ⟨h, mth, cl⟩ := client
      rcases h with e | resp <;> rfl

/-- C8: the watchdog's per-pass classification function agrees everywhere with
the spec's classification table: `Stopped` when the socket does not exist;
`Error` when it exists but connecting or the health call fails or the envelope
is non-ok; `Unhealthy` exactly on status string `degraded`/`unhealthy`; and
`Running` on `healthy`/`running` and on every other status string (the
forward-compatible default).  Totality holds by construction: both sides are
total functions on every daemon environment. -/
theorem service_state_classification (d : DaemonEnv) :
    get_service_state d = claimServiceState d := by
  obtain ⟨sock, conn⟩ := d
  cases sock
  · rfl
  · rcases conn with e | client
    · rfl
    · obtain ⟨h, mth, cl⟩ := client
      rcases h with e | resp
      · rfl
      · obtain ⟨ok, result, err⟩ := resp
        cases ok
        · rfl
        · unfold get_service_state claimServiceState
          simp only []
          generalize (((result.getD Json.null).getField "status").bind Json.asStr).getD "running"
            = status
          by_cases h1 : status = "healthy" ∨ status = "running"
          · have h2 : ¬(status = "degraded" ∨ status = "unhealthy") := by
              rcases h1 with h1 | h1 <;> subst h1 <;> decide
            simp [h1, h2]
          · simp [h1]

theorem attempt_restart_attempts (startRes : Option String) (cfg : WatchdogConfig)
    (name : String) (a : Nat) :
    (attempt_restart startRes cfg name a).attempts = a + 1 := by
  unfold attempt_restart
  by_cases h : cfg.maxRestarts > 0 ∧ a + 1 > cfg.maxRestarts
  · simp [h]
  · cases startRes <;> simp [h]

theorem attempt_restart_startInvoked (startRes : Option String) (cfg : WatchdogConfig)
    (name : String) (a : Nat) :
    (attempt_restart startRes cfg name a).startInvoked =
      if cfg.maxRestarts > 0 ∧ a + 1 > cfg.maxRestarts then false else true := by
  unfold attempt_restart
  by_cases h : cfg.maxRestarts > 0 ∧ a + 1 > cfg.maxRestarts
  · simp [h]
  · cases startRes <;> simp [h]

/-- C5: a restart attempt happens only when the watchdog is enabled and the
observed transition is `(Running, Error)` or `(Running, Stopped)` — the
attempt counter moves exactly then, and `start_service` is invoked exactly
then and when additionally the cap is not exceeded.  The transitions
`(Running, Unhealthy)` and `(Unhealthy, Running)` each produce exactly one
notification — "FGP Service Unhealthy" / "FGP Service Recovered" — leave the
counter untouched and never invoke a restart. -/
theorem unhealthy_transitions_never_restart (startRes : Option String)
    (cfg : WatchdogConfig) (name : String) (a : Nat) :
    (handle_state_change startRes cfg name .Running .Unhealthy a =
        ⟨a, [("FGP Service Unhealthy", name ++ " daemon is unhealthy")], false⟩)
  ∧ (handle_state_change startRes cfg name .Unhealthy .Running a =
        ⟨a, [("FGP Service Recovered", name ++ " daemon recovered")], false⟩)
  ∧ (∀ prev cur : ServiceState,
      (handle_state_change startRes cfg name prev cur a).attempts =
        if cfg.enabled ∧ (prev = .Running ∧ (cur = .Error ∨ cur = .Stopped))
        then a + 1 else a)
  ∧ (∀ prev cur : ServiceState,
      (handle_state_change startRes cfg name prev cur a).startInvoked =
        if cfg.enabled ∧ (prev = .Running ∧ (cur = .Error ∨ cur = .Stopped))
        then (if cfg.maxRestarts > 0 ∧ a + 1 > cfg.maxRestarts then false else true)
        else false) := by
  refine ⟨?_, ?_, ?_, ?_⟩
  · simp [handle_state_change, notifOf]
  · simp [handle_state_change, notifOf]
  · intro prev cur
    by_cases he : cfg.enabled = true <;>
      cases prev <;> cases cur <;>
        simp [handle_state_change, notifOf, attempt_restart_attempts, he]
  · intro prev cur
    by_cases he : cfg.enabled = true <;>
      cases prev <;> cases cur <;>
        simp [handle_state_change, notifOf, attempt_restart_startInvoked, he]

/-- C3: with the watchdog enabled and `maxRestarts = 1`, a run of consecutive
`Running → Error` crash events with no intervening return to `Running` behaves
as claimed: after `n` crashes the counter is exactly `n` (every crash keeps
incrementing it); the `(n+1)`-th crash invokes `start_service` exactly when it
is the first crash; and it emits a "FGP Restart Limit Reached" notification
exactly when it is not the first crash. -/
theorem restart_cap_crash_sequence (startRes : Option String) (delay : Nat)
    (name : String) (n : Nat) :
    (iterateCrashes startRes ⟨true, 1, delay⟩ name n = n)
  ∧ ((handle_state_change startRes ⟨true, 1, delay⟩ name .Running .Error
        (iterateCrashes startRes ⟨true, 1, delay⟩ name n)).startInvoked = decide (n = 0))
  ∧ (hasTitle "FGP Restart Limit Reached"
      (handle_state_change startRes ⟨true, 1, delay⟩ name .Running .Error
        (iterateCrashes startRes ⟨true, 1, delay⟩ name n)).notifs = decide (1 ≤ n)) := by
  have hiter : ∀ m, iterateCrashes startRes ⟨true, 1, delay⟩ name m = m := by
    intro m
    induction m with
    | zero => rfl
    | succ k ih =>
      unfold iterateCrashes
      rw [ih]
      simp [handle_state_change, notifOf, attempt_restart_attempts]
  refine ⟨hiter n, ?_, ?_⟩
  · rw [hiter n]
    cases n with
    | zero =>
      cases startRes <;>
        simp [handle_state_change, notifOf, attempt_restart]
    | succ k =>
      simp [handle_state_change, notifOf, attempt_restart, Nat.succ_lt_succ]
  · rw [hiter n]
    cases n with
    | zero =>
      cases startRes <;>
        simp [handle_state_change, notifOf, attempt_restart, hasTitle]
    | succ k =>
      simp [handle_state_change, notifOf, attempt_restart, hasTitle, Nat.succ_lt_succ]

/-- C4: with the watchdog enabled and `maxRestarts = 2`, the observed sequence
`Running → Error → Running` fires exactly one restart attempt (on the
`Running → Error` transition) and leaves the restart counter cleared to zero
after the return to `Running`; and in general, for any configuration, any
polling observation of a transition into `Running` clears that service's
counter (while a `Running → Running` non-transition leaves it alone). -/
theorem restart_counter_reset_on_recovery (startRes : Option String) (delay : Nat)
    (name : String) :
    ((runObservations startRes ⟨true, 2, delay⟩ name
        [.Running, .Error, .Running] none 0).starts = 1)
  ∧ ((runObservations startRes ⟨true, 2, delay⟩ name
        [.Running, .Error, .Running] none 0).attempts = 0)
  ∧ (∀ (cfg : WatchdogConfig) (prev : ServiceState) (a : Nat),
      (checkService startRes cfg name (some prev) .Running a).attempts =
        if prev = .Running then a else 0) := by
  refine ⟨?_, ?_, ?_⟩
  · cases startRes <;> rfl
  · cases startRes <;> rfl
  · intro cfg prev a
    by_cases hp : prev = .Running
    · subst hp; simp [checkService]
    · simp [checkService, hp]

/-- C9: the tools/list catalog always contains the three meta-tool descriptors,
whatever the registry holds; a service whose socket is missing, whose
connection fails, whose `methods` call fails, or whose envelope is non-ok
contributes zero tools (and no error, since the catalog is a total function);
and the tools contributed from an advertised method array are exactly those of
the methods not named `health`, `stop` or `methods`. -/
theorem tools_list_catalog (svcs : List (String × DaemonEnv)) :
    (listDaemonsTool ∈ toolsListTools svcs ∧ startDaemonTool ∈ toolsListTools svcs ∧
      stopDaemonTool ∈ toolsListTools svcs)
  ∧ (∀ (n : String) (d : DaemonEnv), d.socketExists = false → serviceTools n d = [])
  ∧ (∀ (n : String) (d : DaemonEnv) (e : String),
      d.connect = .error e → serviceTools n d = [])
  ∧ (∀ (n : String) (d : DaemonEnv) (c : ClientEnv) (e : String),
      d.connect = .ok c → c.methods = .error e → serviceTools n d = [])
  ∧ (∀ (n : String) (d : DaemonEnv) (c : ClientEnv) (r : FgpResponse),
      d.connect = .ok c → c.methods = .ok r → r.ok = false → serviceTools n d = [])
  ∧ (∀ (n : String) (ms : List Json),
      toolsFromMethods n ms =
        (ms.filter fun m => decide ¬(methodNameOf m = "health" ∨ methodNameOf m = "stop" ∨
          methodNameOf m = "methods")).map (mkTool n)) := by
  refine ⟨⟨?_, ?_, ?_⟩, ?_, ?_, ?_, ?_, ?_⟩
  · simp [toolsListTools]
  · simp [toolsListTools]
  · simp [toolsListTools]
  · intro n d h
    simp [serviceTools, advertisedMethods, h]
  · intro n d e h
    simp [serviceTools, advertisedMethods, h]
  · intro n d c e hc hm
    by_cases hs : d.socketExists = true <;>
      simp [serviceTools, advertisedMethods, hs, hc, hm]
  · intro n d c r hc hm hok
    by_cases hs : d.socketExists = true <;>
      simp [serviceTools, advertisedMethods, hs, hc, hm, hok]
  · intro n ms
    induction ms with
    | nil => rfl
    | cons m rest ih =>
      by_cases h : methodNameOf m = "health" ∨ methodNameOf m = "stop" ∨
          methodNameOf m = "methods"
      · rcases h with h | h | h <;>
          simp [toolsFromMethods, h, ih, List.filter_cons]
      · have h1 : ¬ methodNameOf m = "health" := fun e => h (Or.inl e)
        have h2 : ¬ methodNameOf m = "stop" := fun e => h (Or.inr (Or.inl e))
        have h3 : ¬ methodNameOf m = "methods" := fun e => h (Or.inr (Or.inr e))
        simp [toolsFromMethods, h1, h2, h3, ih, List.filter_cons]

theorem tools_list_catalog_witness :
    (serviceTools "x" ⟨false, .error "down"⟩ = [])
  ∧ (serviceTools "x" ⟨true, .error "conn refused"⟩ = [])
  ∧ (serviceTools "x" ⟨true, .ok ⟨.error "h", .error "methods failed", fun _ _ => .error "c"⟩⟩
      = [])
  ∧ (serviceTools "x" ⟨true, .ok ⟨.error "h", .ok ⟨false, none, none⟩, fun _ _ => .error "c"⟩⟩
      = []) :=
  have T := tools_list_catalog []
  ⟨T.2.1 "x" ⟨false, .error "down"⟩ rfl,
   T.2.2.1 "x" ⟨true, .error "conn refused"⟩ "conn refused" rfl,
   T.2.2.2.1 "x" ⟨true, .ok ⟨.error "h", .error "methods failed", fun _ _ => .error "c"⟩⟩
     ⟨.error "h", .error "methods failed", fun _ _ => .error "c"⟩ "methods failed" rfl rfl,
   T.2.2.2.2.1 "x" ⟨true, .ok ⟨.error "h", .ok ⟨false, none, none⟩, fun _ _ => .error "c"⟩⟩
     ⟨.error "h", .ok ⟨false, none, none⟩, fun _ _ => .error "c"⟩ ⟨false, none, none⟩
     rfl rfl rfl⟩

end FgpCli
